import Mathlib

/-!
Verification of the phase-autoencoder training program
(`my_cyclops_new_loss.py`) against its natural-language specification.

The Python source is shallowly embedded over `ℝ`: tensors become lists of
reals, the two networks become explicit weight records with explicit
forward functions, and the three loss terms are translated line by line
from `neural_sine_fitting_loss`, `time_supervision_loss` and the body of
`train_model`.  The autograd/optimizer update of `torch` is an external
library effect and is abstracted as a state-transition parameter of the
training loop; everything the claims speak about (masking, loss arithmetic,
checkpoint contents, output shaping) is embedded concretely.
-/

open Real

noncomputable section

namespace Cyclops

/-- Dot product of a weight row with an input vector, as computed by a
`torch.nn.Linear` layer for one output unit (zip-multiply and sum). -/
def dot (w x : List ℝ) : ℝ := (List.zipWith (fun a b => a * b) w x).sum

/-- Boolean-mask selection, the embedding of tensor indexing `t[mask]`:
keeps the entries of `xs` at positions where `mask` holds. -/
def maskSelect {α : Type} (mask : List Bool) (xs : List α) : List α :=
  (mask.zip xs).filterMap (fun p => if p.1 then some p.2 else none)

/-- Embeds `torch.atan2 y x`: quadrant-aware arctangent with range `(-π, π]`,
and `atan2 0 0 = 0`. -/
def atan2 (y x : ℝ) : ℝ :=
  if 0 < x then Real.arctan (y / x)
  else if x < 0 then
    (if 0 ≤ y then Real.arctan (y / x) + π else Real.arctan (y / x) - π)
  else
    (if 0 < y then π / 2 else if y < 0 then -(π / 2) else 0)

/-- Embeds `coords_to_phase` (source lines 94-98): `atan2` of the 2-D point,
with a negative result shifted by `+2π` into `[0, 2π)`. -/
def coordsToPhase (c : ℝ × ℝ) : ℝ :=
  let p := atan2 c.2 c.1
  if p < 0 then p + 2 * π else p

/-- Embeds `phase_to_coords` (source lines 100-103). -/
def phaseToCoords (p : ℝ) : ℝ × ℝ := (Real.cos p, Real.sin p)

/-- Embeds `time_to_phase` (source lines 105-106): `2π · t / period`, with NO
wrapping of the result into `[0, 2π)`. -/
def timeToPhase (timeHours periodHours : ℝ) : ℝ :=
  2 * π * timeHours / periodHours

/-- The circular-distance rule applied inline at source lines 362-363 and
551-555: `d = |a - b|; min (d, 2π - d)`. -/
def circularDistance (a b : ℝ) : ℝ :=
  min |a - b| (2 * π - |a - b|)

/-- Parameters of `PhaseAutoEncoder` (source lines 30-52): the encoder is
a single `Linear(input_dim, 2)` (two weight rows and a 2-vector bias) and
the decoder a single `Linear(2, input_dim)` (one length-2 weight row and
one bias scalar per output feature). -/
structure PhaseAutoEncoder where
  encW1 : List ℝ
  encW2 : List ℝ
  encB : ℝ × ℝ
  decW : List (List ℝ)
  decB : List ℝ

/-- Embeds `PhaseAutoEncoder.encode` (source lines 61-62): the raw linear 2-D
projection. -/
def encode (m : PhaseAutoEncoder) (x : List ℝ) : ℝ × ℝ :=
  (dot m.encW1 x + m.encB.1, dot m.encW2 x + m.encB.2)

/-- Euclidean norm of a 2-vector, `torch.norm` over `dim=1` for one row. -/
def norm2 (v : ℝ × ℝ) : ℝ := Real.sqrt (v.1 ^ 2 + v.2 ^ 2)

/-- The normalization step of `PhaseAutoEncoder.forward` (source lines
54-57): `unit_coords = raw_coords / (norm + 1e-8)`. -/
def forwardUnit (m : PhaseAutoEncoder) (x : List ℝ) : ℝ × ℝ :=
  let raw := encode m x
  let n := norm2 raw + 1 / 100000000
  (raw.1 / n, raw.2 / n)

/-- Embeds `PhaseAutoEncoder.decode` (source lines 64-65): `Linear(2, input_dim)`
applied to a unit coordinate. -/
def decodeAE (m : PhaseAutoEncoder) (c : ℝ × ℝ) : List ℝ :=
  List.zipWith (fun w b => dot w [c.1, c.2] + b) m.decW m.decB

/-- Embeds `PhaseAutoEncoder.forward` (source lines 54-59): returns the unit
coordinate and the reconstruction decoded from it. -/
def forwardAE (m : PhaseAutoEncoder) (x : List ℝ) : (ℝ × ℝ) × List ℝ :=
  let u := forwardUnit m x
  (u, decodeAE m u)

/-- Parameters of `SineParameterPredictor` (source lines 68-83): three
linear layers `Linear(input_dim, hidden)`, `Linear(hidden, hidden/2)`,
`Linear(hidden/2, 3)`. -/
structure SineParameterPredictor where
  W1 : List (List ℝ)
  b1 : List ℝ
  W2 : List (List ℝ)
  b2 : List ℝ
  W3 : List (List ℝ)
  b3 : List ℝ

/-- One `torch.nn.Linear` layer: an output unit per weight row. -/
def linearF (W : List (List ℝ)) (b : List ℝ) (x : List ℝ) : List ℝ :=
  List.zipWith (fun w bi => dot w x + bi) W b

/-- Elementwise `ReLU`. -/
def reluF (x : List ℝ) : List ℝ := x.map (fun v => max v 0)

/-- Train-mode `Dropout`: elementwise product with a scaling mask (a
Bernoulli-sampled `0` or `1/(1-p)` per unit); the random mask is passed
in explicitly. -/
def dropoutF (mask x : List ℝ) : List ℝ :=
  List.zipWith (fun a b => a * b) mask x

/-- The function `softplus(x) = log(1 + exp x)`, the `nn.Softplus` activation. -/
def softplus (x : ℝ) : ℝ := Real.log (1 + Real.exp x)

/-- Embeds the network of `SineParameterPredictor` (source lines 72-80):
Linear → ReLU → Dropout → Linear → ReLU → Dropout → Linear, with the two
dropout masks passed explicitly. -/
def spNetwork (sp : SineParameterPredictor) (m1 m2 x : List ℝ) : List ℝ :=
  linearF sp.W3 sp.b3
    (dropoutF m2 (reluF (linearF sp.W2 sp.b2
      (dropoutF m1 (reluF (linearF sp.W1 sp.b1 x))))))

/-- Embeds `SineParameterPredictor.forward` (source lines 85-92) for one input
row: amplitude `softplus(raw₀) + 1e-6`, phase shift `tanh(raw₁) · π`,
baseline `raw₂`. -/
def spForward (sp : SineParameterPredictor) (m1 m2 x : List ℝ) : ℝ × ℝ × ℝ :=
  let raw := spNetwork sp m1 m2 x
  (softplus (raw.getD 0 0) + 1 / 1000000,
   Real.tanh (raw.getD 1 0) * π,
   raw.getD 2 0)

/-- The predictor as called inside the training loss: `torch` raises a
shape error (caught by the `except` at source lines 344-346) whenever the
input length differs from the first layer's `in_features`, so the
embedded call returns `none` exactly then.  The expected width is the
length of the first weight row. -/
def spPredict (sp : SineParameterPredictor) (m1 m2 : List ℝ)
    (x : List ℝ) : Option (ℝ × ℝ × ℝ) :=
  if x.length = (sp.W1.headD []).length then some (spForward sp m1 m2 x)
  else none

/-- The per-gene input construction at source lines 325-326:
`gene_input_full = torch.zeros((1, input_dim))` followed by
`gene_input_full[0, :len(g)] = g`.  At every call site `g.length ≤
inputDim` (the group is a subset of the rows), so the slice assignment
never overflows. -/
def geneInputFull (inputDim : ℕ) (g : List ℝ) : List ℝ :=
  g.take inputDim ++ List.replicate (inputDim - g.length) 0

/-- The body of the inner gene loop of `neural_sine_fitting_loss`
(source lines 318-346) for one gene column `g` of one celltype group:
`none` models a skipped pair (the `continue` for a short gene vector, or
the `except` catching a failed predictor call); `some l` is the
accumulated `gene_loss + reg_loss`.  `gp` is `celltype_phases`. -/
def genePairLoss (inputDim minSamples : ℕ)
    (pred : List ℝ → Option (ℝ × ℝ × ℝ)) (gp g : List ℝ) : Option ℝ :=
  if g.length < minSamples then none
  else
    let input := geneInputFull inputDim g
    match pred input with
    | none => none
    | some (a, sh, b) =>
      let vm := (input.map (fun v => if v = 0 then false else true)).take g.length
      let yhat := gp.map (fun p => a * Real.sin (p + sh) + b)
      let gSel := maskSelect vm g
      let ySel := maskSelect vm yhat
      let mse := (List.zipWith (fun gi yi => (gi - yi) ^ 2) gSel ySel).sum /
        (gSel.length : ℝ)
      some (mse + (1 / 100) * (a ^ 2 + b ^ 2))

/-- The gene loop of `neural_sine_fitting_loss` for one celltype group,
accumulating `(total_loss, total_combinations)` over a list of gene
indices (`range(n_genes)` in the source). -/
def groupStatsAux (inputDim minSamples : ℕ)
    (pred : List ℝ → Option (ℝ × ℝ × ℝ)) (gp : List ℝ)
    (ge : List (List ℝ)) : List ℕ → ℝ × ℕ
  | [] => (0, 0)
  | i :: rest =>
    let acc := groupStatsAux inputDim minSamples pred gp ge rest
    match genePairLoss inputDim minSamples pred gp
        (ge.map (fun row => row.getD i 0)) with
    | none => acc
    | some l => (l + acc.1, 1 + acc.2)

/-- Loss and combination count contributed by one celltype group (source
lines 315-342): `gp`/`ge` are the group's phases and expression rows. -/
def groupStats (nGenes inputDim minSamples : ℕ)
    (pred : List ℝ → Option (ℝ × ℝ × ℝ)) (gp : List ℝ)
    (ge : List (List ℝ)) : ℝ × ℕ :=
  groupStatsAux inputDim minSamples pred gp ge (List.range nGenes)

/-- Deduplication of the celltype labels, modelling `np.unique` (source
line 303).  `np.unique` additionally sorts the labels, but the loop
below only accumulates a commutative sum and a count, so the iteration
order does not affect the value. -/
def uniqueCelltypes : List String → List String
  | [] => []
  | c :: rest =>
    let r := uniqueCelltypes rest
    if c ∈ r then r else c :: r

/-- The celltype loop of `neural_sine_fitting_loss` (source lines
307-346) over an explicit list of distinct celltype values, skipping the
`PADDING` sentinel and groups smaller than `min_samples`. -/
def sineStatsAux (phases : List ℝ) (exprs : List (List ℝ))
    (cts : List String) (nGenes inputDim minSamples : ℕ)
    (pred : List ℝ → Option (ℝ × ℝ × ℝ)) : List String → ℝ × ℕ
  | [] => (0, 0)
  | c :: rest =>
    let acc := sineStatsAux phases exprs cts nGenes inputDim minSamples pred rest
    if c = "PADDING" then acc
    else
      let mask := cts.map (fun ct => decide (ct = c))
      if mask.count true < minSamples then acc
      else
        let gs := groupStats nGenes inputDim minSamples pred
          (maskSelect mask phases) (maskSelect mask exprs)
        (gs.1 + acc.1, gs.2 + acc.2)

/-- The pair `(total_loss, total_combinations)` of `neural_sine_fitting_loss`
(source lines 297-346): `phases = coords_to_phase(phase_coords)`,
`n_genes = expressions.shape[1]`, `input_dim = expressions.shape[0]`. -/
def sineStats (coords : List (ℝ × ℝ)) (exprs : List (List ℝ))
    (cts : List String) (minSamples : ℕ)
    (pred : List ℝ → Option (ℝ × ℝ × ℝ)) : ℝ × ℕ :=
  sineStatsAux (coords.map coordsToPhase) exprs cts
    (exprs.headD []).length exprs.length minSamples pred (uniqueCelltypes cts)

/-- Embeds `neural_sine_fitting_loss` (source lines 291-351): returns `0` when
`celltypes` or `expressions` is `None`, otherwise
`lambda_neural_sine * total_loss / total_combinations` when at least one
pair qualified and `0` otherwise. -/
def neuralSineFittingLoss (coords : List (ℝ × ℝ))
    (exprs : Option (List (List ℝ))) (cts : Option (List String))
    (pred : List ℝ → Option (ℝ × ℝ × ℝ)) (lambdaNeuralSine : ℝ)
    (minSamples : ℕ) : ℝ :=
  match exprs, cts with
  | some exprs, some cts =>
    let s := sineStats coords exprs cts minSamples pred
    if 0 < s.2 then lambdaNeuralSine * (s.1 / (s.2 : ℝ)) else 0
  | _, _ => 0

/-- Embeds `time_supervision_loss` (source lines 354-365): `0` when
`true_times` is `None`, otherwise `lambda_time` times the mean of
`min(|pred - true|, 2π - |pred - true|)`. -/
def timeSupervisionLoss (coords : List (ℝ × ℝ)) (times : Option (List ℝ))
    (lambdaTime periodHours : ℝ) : ℝ :=
  match times with
  | none => 0
  | some ts =>
    let preds := coords.map coordsToPhase
    let trues := ts.map (fun t => timeToPhase t periodHours)
    let diffs := List.zipWith circularDistance preds trues
    lambdaTime * (diffs.sum / (diffs.length : ℝ))

/-- The training inputs prepared at source lines 385-414: the (possibly
padded) sample matrix plus the optional time and celltype labels. -/
structure TrainData where
  expressions : List (List ℝ)
  times : Option (List ℝ)
  celltypes : Option (List String)

/-- The validity mask computed once before the epoch loop (source lines
390-398): a sample is invalid exactly when a celltype label exists and
equals `PADDING`; with no celltype labels every sample counts as
valid. -/
def validMask (d : TrainData) : List Bool :=
  match d.celltypes with
  | none => d.expressions.map (fun _ => true)
  | some cts => cts.map (fun ct => if ct = "PADDING" then false else true)

/-- The reconstruction term of one epoch (source lines 429-436):
`nn.MSELoss` between the forward reconstruction and the input, over the
rows selected by the validity mask; `0` when no row is valid. -/
def epochRecon (m : PhaseAutoEncoder) (d : TrainData) : ℝ :=
  let vm := validMask d
  let recon := d.expressions.map (fun x => (forwardAE m x).2)
  let vx := maskSelect vm d.expressions
  let vr := maskSelect vm recon
  if 0 < vm.count true then
    (List.zipWith (fun rr xr =>
      (List.zipWith (fun a b => (a - b) ^ 2) rr xr).sum) vr vx).sum /
      ((vx.map List.length).sum : ℝ)
  else 0

/-- The time-supervision term of one epoch (source lines 438-443):
computed on the valid rows only, with weight `1.0` passed to
`time_supervision_loss`; `0` when times are absent or no valid row
remains. -/
def epochTimeLoss (m : PhaseAutoEncoder) (d : TrainData)
    (periodHours : ℝ) : ℝ :=
  match d.times with
  | none => 0
  | some ts =>
    let vm := validMask d
    let vcoords := maskSelect vm (d.expressions.map (fun x => (forwardAE m x).1))
    let vts := maskSelect vm ts
    if 0 < vts.length then timeSupervisionLoss vcoords (some vts) 1 periodHours
    else 0

/-- The tensor `final_phase_coords` of source lines 447-452: the unit coordinates of
the valid rows, further restricted to non-`PADDING` celltypes. -/
def finalPhaseCoords (m : PhaseAutoEncoder) (d : TrainData) : List (ℝ × ℝ) :=
  match d.celltypes with
  | none => []
  | some cts =>
    let vm := validMask d
    let vcts := maskSelect vm cts
    let npMask := vcts.map (fun c => if c = "PADDING" then false else true)
    maskSelect npMask (maskSelect vm (d.expressions.map (fun x => (forwardAE m x).1)))

/-- The tensor `final_expressions` of source lines 448-453: the expression rows of
the valid, non-`PADDING` samples; its length is the `input_dim` used
inside `neural_sine_fitting_loss`. -/
def finalExpressions (d : TrainData) : List (List ℝ) :=
  match d.celltypes with
  | none => []
  | some cts =>
    let vm := validMask d
    let vcts := maskSelect vm cts
    let npMask := vcts.map (fun c => if c = "PADDING" then false else true)
    maskSelect npMask (maskSelect vm d.expressions)

/-- The array `final_celltypes` of source lines 449-454. -/
def finalCelltypes (d : TrainData) : List String :=
  match d.celltypes with
  | none => []
  | some cts =>
    let vm := validMask d
    let vcts := maskSelect vm cts
    let npMask := vcts.map (fun c => if c = "PADDING" then false else true)
    maskSelect npMask vcts

/-- The neural-sine term of one epoch (source lines 445-459): `0` when
celltype labels are absent or no valid non-`PADDING` row remains,
otherwise `neural_sine_fitting_loss` on the filtered rows with weight
`1.0` and the default `min_samples = 5`. -/
def epochSineLoss (m : PhaseAutoEncoder) (d : TrainData)
    (pred : List ℝ → Option (ℝ × ℝ × ℝ)) : ℝ :=
  match d.celltypes with
  | none => 0
  | some cts =>
    let vm := validMask d
    let vcts := maskSelect vm cts
    let npMask := vcts.map (fun c => if c = "PADDING" then false else true)
    if 0 < npMask.count true then
      neuralSineFittingLoss (finalPhaseCoords m d) (some (finalExpressions d))
        (some (finalCelltypes d)) pred 1 5
    else 0

/-- The total loss of one epoch (source line 461). -/
def epochTotalLoss (m : PhaseAutoEncoder) (d : TrainData)
    (pred : List ℝ → Option (ℝ × ℝ × ℝ))
    (lambdaRecon lambdaTime lambdaSine periodHours : ℝ) : ℝ :=
  lambdaRecon * epochRecon m d + lambdaTime * epochTimeLoss m d periodHours +
    lambdaSine * epochSineLoss m d pred

/-- The epoch loop of `train_model` (source lines 422-478) on an
abstract parameter state `α` (the joint parameters of both networks):
each epoch computes the scalar loss of the current state, appends it to
`train_losses`, and moves to the next state.  The `loss.backward()` /
`optimizer.step()` / `scheduler.step()` update is a `torch` autograd
effect outside the embedded fragment and is abstracted as the `step`
argument; `lossOf` receives the epoch index so that per-epoch dropout
randomness can be threaded through. -/
def trainEpochs {α : Type} (step : α → α) (lossOf : ℕ → α → ℝ)
    (numEpochs : ℕ) (s0 : α) : α × List ℝ :=
  (List.range numEpochs).foldl
    (fun acc i => (step acc.1, acc.2 ++ [lossOf i acc.1])) (s0, [])

/-- The joint parameter state updated by the single optimizer: the
autoencoder and the sine predictor (source line 375 builds one optimizer
over both parameter lists). -/
structure JointState where
  ae : PhaseAutoEncoder
  sp : SineParameterPredictor

/-- The training end state available at source line 480: both networks'
final parameters, the preprocessing-info dictionary (of caller-supplied
type `Pre`), and the recorded loss history. -/
structure TrainEndState (Pre : Type) where
  aeParams : PhaseAutoEncoder
  spParams : SineParameterPredictor
  preInfo : Pre
  losses : List ℝ

/-- The dictionary persisted as `final_model.pth` (source lines 480-485):
exactly the keys `model_state_dict` (the autoencoder only),
`preprocessing_info` and `train_losses`. -/
structure Checkpoint (Pre : Type) where
  model_state_dict : PhaseAutoEncoder
  preprocessing_info : Pre
  train_losses : List ℝ

/-- The checkpoint built at source lines 480-484 from the training end
state: `model.state_dict()`, `preprocessing_info`, `train_losses`. -/
def finalCheckpoint {Pre : Type} (s : TrainEndState Pre) : Checkpoint Pre :=
  ⟨s.aeParams, s.preInfo, s.losses⟩

/-- Embeds `train_model` (source lines 368-487): runs the epoch loop from the
initial joint state and persists the final checkpoint.  The per-epoch
loss is the embedded `epochTotalLoss` of the current autoencoder
parameters, with the sine predictor applied through `spPredict` under
the epoch's dropout masks `(masks i)`. -/
def trainModel {Pre : Type} (step : JointState → JointState)
    (masks : ℕ → List ℝ × List ℝ) (s0 : JointState) (d : TrainData)
    (pre : Pre) (numEpochs : ℕ)
    (lambdaRecon lambdaTime lambdaSine periodHours : ℝ) :
    Checkpoint Pre × List ℝ :=
  let r := trainEpochs step
    (fun i s => epochTotalLoss s.ae d
      (spPredict s.sp (masks i).1 (masks i).2)
      lambdaRecon lambdaTime lambdaSine periodHours) numEpochs s0
  (finalCheckpoint ⟨r.1.ae, r.1.sp, pre, r.2⟩, r.2)

/-- The zero-padding branch of `load_and_preprocess_train_data` (source
lines 173-186), which the claims exercise: when the true sample count is
below `maxSamples`, append all-zero expression rows, zero times (when
present) and `PADDING` celltype labels (when present).  The truncation
branch for oversized inputs is not modelled. -/
def padData (exprs : List (List ℝ)) (times : Option (List ℝ))
    (cts : Option (List String)) (maxSamples nComponents : ℕ) : TrainData :=
  let padSize := maxSamples - exprs.length
  { expressions := exprs ++ List.replicate padSize (List.replicate nComponents 0)
    times := times.map (fun ts => ts ++ List.replicate padSize 0)
    celltypes := cts.map (fun cs => cs ++ List.replicate padSize "PADDING") }

/-- Modelled from the spec (section 4.4): the per-pair contribution as
the specification describes the code, with the MSE taken over the
positions of the first `k` whose expression value is nonzero.  Stated
independently of the loop implementation for comparison with
`genePairLoss`. -/
def specGeneContribution (gp g : List ℝ) (a sh b : ℝ) : ℝ :=
  let pairs := (g.zip gp).filter (fun p => if p.1 = 0 then false else true)
  let mse := (pairs.map (fun p => (p.1 - (a * Real.sin (p.2 + sh) + b)) ^ 2)).sum /
    (pairs.length : ℝ)
  mse + (1 / 100) * (a ^ 2 + b ^ 2)

/-- Modelled from the claim's words: the per-pair contribution with the
MSE taken over ALL of the first `k` positions (`k` = group size), as
claim C6 states it. -/
def specGeneContributionFirstK (gp g : List ℝ) (a sh b : ℝ) : ℝ :=
  let mse := ((g.zip gp).map (fun p => (p.1 - (a * Real.sin (p.2 + sh) + b)) ^ 2)).sum /
    (g.length : ℝ)
  mse + (1 / 100) * (a ^ 2 + b ^ 2)

/-- Modelled from the spec (section 4.4): the distinct celltype values
that qualify for the neural-sine accumulation — not the `PADDING`
sentinel and group size at least `min_samples`. -/
def qualifyingGroups (cts : List String) (minSamples : ℕ) : List String :=
  (uniqueCelltypes cts).filter
    (fun c => decide (¬ c = "PADDING" ∧
      minSamples ≤ (cts.map (fun ct => decide (ct = c))).count true))

/-- A constant sine-parameter predictor used as a concrete test input:
always succeeds with amplitude 1, phase shift 0, baseline 0. -/
def constPredictor : List ℝ → Option (ℝ × ℝ × ℝ) := fun _ => some (1, 0, 0)

/-! ### Helper lemmas -/

lemma tanh_bounds (x : ℝ) : -1 < Real.tanh x ∧ Real.tanh x < 1 := by
  have hc := Real.cosh_pos x
  have h1 : Real.tanh x < 1 := by
    rw [Real.tanh_eq_sinh_div_cosh, div_lt_one hc]
    exact Real.sinh_lt_cosh x
  have h2 : -1 < Real.tanh x := by
    have := Real.sinh_lt_cosh (-x)
    rw [Real.sinh_neg, Real.cosh_neg] at this
    rw [Real.tanh_eq_sinh_div_cosh, lt_div_iff₀ hc]
    linarith
  exact ⟨h2, h1⟩

lemma softplus_pos (x : ℝ) : 0 < softplus x := by
  unfold softplus
  have := Real.exp_pos x
  exact Real.log_pos (by linarith)

lemma coordsToPhase_unitx : coordsToPhase (1, 0) = 0 := by
  simp [coordsToPhase, atan2]

/-! ### C10: negative time-supervision loss from unwrapped targets -/

/-- C10: on a valid sample whose time label (30 h) lies outside one
period (24 h), `time_to_phase` yields a target beyond `2π`, so
`min(|pred - target|, 2π - |pred - target|)` — and hence the mean loss —
is strictly negative.  Here the predicted coordinate is `(1, 0)` (phase
0) and the target phase is `5π/2`. -/
theorem timeSupervisionLoss_neg_on_unwrapped_time :
    timeSupervisionLoss [(1, 0)] (some [30]) 1 24 < 0 := by
  have hπ := Real.pi_pos
  have habs : |(0 : ℝ) - 2 * π * 30 / 24| = 2 * π * 30 / 24 := by
    rw [zero_sub, abs_neg, abs_of_nonneg (by positivity)]
  simp only [timeSupervisionLoss, timeToPhase, circularDistance,
    coordsToPhase_unitx, List.map_cons, List.map_nil, List.zipWith_cons_cons,
    List.zipWith_nil_right, List.sum_cons, List.sum_nil, List.length_cons,
    List.length_nil, habs]
  have hmin : min (2 * π * 30 / 24) (2 * π - 2 * π * 30 / 24)
      = 2 * π - 2 * π * 30 / 24 := min_eq_right (by nlinarith)
  rw [hmin]
  push_cast
  nlinarith

/-! ### C4: properties of the circular-distance rule -/

/-- C4 counterexample: the claim asserts `circularDistance` lies in
`[0, π]` for all angles, "including against target phases produced by
the unwrapped timeToPhase"; but at predicted phase `0` against the
target `timeToPhase 30 24 = 5π/2` the rule evaluates to `-π/2 < 0`. -/
theorem circularDistance_negative_at_unwrapped_target :
    circularDistance 0 (timeToPhase 30 24) < 0 := by
  have hπ := Real.pi_pos
  have habs : |(0 : ℝ) - 2 * π * 30 / 24| = 2 * π * 30 / 24 := by
    rw [zero_sub, abs_neg, abs_of_nonneg (by positivity)]
  unfold circularDistance timeToPhase
  rw [habs]
  have hmin : min (2 * π * 30 / 24) (2 * π - 2 * π * 30 / 24)
      = 2 * π - 2 * π * 30 / 24 := min_eq_right (by nlinarith)
  rw [hmin]
  nlinarith

/-- C4 (amended): `circularDistance` is symmetric in its arguments; on
inputs whose difference is at most `2π` in absolute value — in
particular any two angles of `[0, 2π)` — it lies in `[0, π]` and
vanishes exactly when the angles are congruent mod `2π`; and
`circularDistance(0.1, 2π - 0.1) = 0.2` exactly.  (Without the
`|a - b| ≤ 2π` restriction the bound fails, as unwrapped `timeToPhase`
targets show.) -/
theorem circularDistance_props :
    (∀ a b : ℝ, circularDistance a b = circularDistance b a) ∧
    (∀ a b : ℝ, |a - b| ≤ 2 * π →
      0 ≤ circularDistance a b ∧ circularDistance a b ≤ π ∧
      (circularDistance a b = 0 ↔ ∃ k : ℤ, a - b = 2 * π * k)) ∧
    circularDistance (1 / 10) (2 * π - 1 / 10) = 1 / 5 := by
  have hπ := Real.pi_pos
  refine ⟨?_, ?_, ?_⟩
  · intro a b
    unfold circularDistance
    rw [abs_sub_comm]
  · intro a b hle
    have hd : 0 ≤ |a - b| := abs_nonneg _
    refine ⟨le_min hd (by linarith), ?_, ?_⟩
    · rcases le_or_lt |a - b| π with h | h
      · exact le_trans (min_le_left _ _) h
      · exact le_trans (min_le_right _ _) (by linarith)
    · constructor
      · intro h0
        unfold circularDistance at h0
        rcases le_total |a - b| (2 * π - |a - b|) with hc | hc
        · rw [min_eq_left hc] at h0
          refine ⟨0, ?_⟩
          have : a - b = 0 := abs_eq_zero.mp h0
          push_cast
          linarith
        · rw [min_eq_right hc] at h0
          have h2 : |a - b| = 2 * π := by linarith
          rcases (abs_eq (by positivity)).mp h2 with h3 | h3
          · exact ⟨1, by push_cast; linarith⟩
          · exact ⟨-1, by push_cast; linarith⟩
      · rintro ⟨k, hk⟩
        have habs : |a - b| = 2 * π * |(k : ℝ)| := by
          rw [hk, abs_mul, abs_of_nonneg (by positivity : (0:ℝ) ≤ 2 * π)]
        have hk1 : |(k : ℝ)| ≤ 1 := by
          by_contra hgt
          push_neg at hgt
          have : 2 * π < |a - b| := by
            rw [habs]
            nlinarith
          linarith
        obtain ⟨hklo, hkhi⟩ : -1 ≤ k ∧ k ≤ 1 := by
          have : |k| ≤ 1 := by exact_mod_cast (by rwa [← Int.cast_abs] at hk1 :
            ((|k| : ℤ) : ℝ) ≤ 1)
          exact abs_le.mp this
        unfold circularDistance
        interval_cases k
        · have : a - b = -(2 * π) := by push_cast at hk; linarith
          rw [this, abs_neg, abs_of_nonneg (by positivity)]
          simp only [sub_self]
          rw [min_eq_right (by linarith)]
        · have : a - b = 0 := by push_cast at hk; linarith
          rw [this, abs_zero]
          exact min_eq_left (by linarith)
        · have : a - b = 2 * π := by push_cast at hk; linarith
          rw [this, abs_of_nonneg (by positivity)]
          simp only [sub_self]
          rw [min_eq_right (by linarith)]
  · have h3 := Real.pi_gt_three
    have hgt : (1 : ℝ) / 5 ≤ 2 * π - 1 / 5 := by nlinarith
    unfold circularDistance
    have habs : |(1 : ℝ) / 10 - (2 * π - 1 / 10)| = 2 * π - 1 / 5 := by
      rw [abs_sub_comm, abs_of_nonneg (by nlinarith)]
      ring
    rw [habs]
    rw [min_eq_right (by linarith)]
    ring

/-- C4 witness: the restricted bound applied at the concrete angles `0`
and `π` (difference `π ≤ 2π`). -/
theorem circularDistance_props_witness :
    0 ≤ circularDistance 0 π ∧ circularDistance 0 π ≤ π ∧
    (circularDistance 0 π = 0 ↔ ∃ k : ℤ, (0 : ℝ) - π = 2 * π * k) := by
  have hπ := Real.pi_pos
  exact circularDistance_props.2.1 0 π
    (by rw [zero_sub, abs_neg, abs_of_nonneg (by positivity)]; linarith)

/-! ### C8: output shaping of the sine-parameter predictor -/

/-- C8: for every weight assignment, every pair of dropout masks and
every input, the `SineParameterPredictor.forward` output triple has
amplitude at least `1e-6` (softplus plus the floor) and phase offset in
`[-π, π]` (tanh scaled by `π`); the baseline component is returned raw,
unconstrained. -/
theorem spForward_constraints (sp : SineParameterPredictor)
    (m1 m2 x : List ℝ) :
    1 / 1000000 ≤ (spForward sp m1 m2 x).1 ∧
    -π ≤ (spForward sp m1 m2 x).2.1 ∧ (spForward sp m1 m2 x).2.1 ≤ π ∧
    (spForward sp m1 m2 x).2.2 = (spNetwork sp m1 m2 x).getD 2 0 := by
  have hπ := Real.pi_pos
  have hsp := softplus_pos ((spNetwork sp m1 m2 x).getD 0 0)
  obtain ⟨hth1, hth2⟩ := tanh_bounds ((spNetwork sp m1 m2 x).getD 1 0)
  unfold spForward
  dsimp only
  refine ⟨by linarith, by nlinarith, by nlinarith, rfl⟩

/-! ### C9: absent labels give exactly-zero loss terms -/

/-- C9: when the time labels are entirely absent the time-supervision
term of every epoch is exactly `0`, and when the celltype labels are
entirely absent the neural-sine term of every epoch is exactly `0`
(both at the `train_model` call sites and inside the loss functions
themselves, which guard on `None`); the loss computation is total, so
training proceeds. -/
theorem absent_labels_give_zero_loss (m : PhaseAutoEncoder) (d : TrainData)
    (pred : List ℝ → Option (ℝ × ℝ × ℝ)) (period lam : ℝ)
    (coords : List (ℝ × ℝ)) (e : Option (List (List ℝ))) (ms : ℕ) :
    (d.times = none → epochTimeLoss m d period = 0) ∧
    (d.celltypes = none → epochSineLoss m d pred = 0) ∧
    timeSupervisionLoss coords none lam period = 0 ∧
    neuralSineFittingLoss coords e none pred lam ms = 0 := by
  refine ⟨?_, ?_, rfl, ?_⟩
  · intro h
    unfold epochTimeLoss
    rw [h]
  · intro h
    unfold epochSineLoss
    rw [h]
  · unfold neuralSineFittingLoss
    cases e <;> rfl

/-- C9 witness: a concrete dataset with one sample and neither time nor
celltype labels; both optional loss terms evaluate to `0`. -/
theorem absent_labels_give_zero_loss_witness :
    epochTimeLoss ⟨[1], [1], (0, 0), [[1, 0]], [0]⟩ ⟨[[1]], none, none⟩ 24 = 0 ∧
    epochSineLoss ⟨[1], [1], (0, 0), [[1, 0]], [0]⟩ ⟨[[1]], none, none⟩
      constPredictor = 0 :=
  ⟨(absent_labels_give_zero_loss ⟨[1], [1], (0, 0), [[1, 0]], [0]⟩
      ⟨[[1]], none, none⟩ constPredictor 24 1 [] none 5).1 rfl,
   (absent_labels_give_zero_loss ⟨[1], [1], (0, 0), [[1, 0]], [0]⟩
      ⟨[[1]], none, none⟩ constPredictor 24 1 [] none 5).2.1 rfl⟩

lemma foldl_epochs_length {α : Type} (step : α → α) (lossOf : ℕ → α → ℝ) :
    ∀ (l : List ℕ) (s : α) (acc : List ℝ),
      ((l.foldl (fun p i => (step p.1, p.2 ++ [lossOf i p.1])) (s, acc)).2).length
        = acc.length + l.length := by
  intro l
  induction l with
  | nil => intro s acc; simp
  | cons i t ih =>
    intro s acc
    rw [List.foldl_cons]
    have := ih (step s) (acc ++ [lossOf i s])
    simp only [List.length_append, List.length_cons, List.length_nil] at this
    rw [this]
    simp
    omega

lemma trainEpochs_losses_length {α : Type} (step : α → α) (lossOf : ℕ → α → ℝ)
    (numEpochs : ℕ) (s0 : α) :
    (trainEpochs step lossOf numEpochs s0).2.length = numEpochs := by
  unfold trainEpochs
  rw [foldl_epochs_length]
  simp

/-! ### C2: checkpoint contents -/

/-- C2 counterexample: the persisted checkpoint is built (source lines
480-484) from `model.state_dict()`, `preprocessing_info` and
`train_losses` only; two training end states that differ only in the
sine predictor's parameters produce identical checkpoints, so the
sine-parameter predictor's learned parameters are not contained in the
checkpoint, contrary to the claim. -/
theorem checkpoint_omits_sine_predictor :
    finalCheckpoint
      (⟨⟨[1], [1], (0, 0), [[1, 0]], [0]⟩, ⟨[], [0], [], [], [], []⟩, (), []⟩ :
        TrainEndState Unit) =
    finalCheckpoint
      ⟨⟨[1], [1], (0, 0), [[1, 0]], [0]⟩, ⟨[], [1], [], [], [], []⟩, (), []⟩ ∧
    (⟨[], [0], [], [], [], []⟩ : SineParameterPredictor) ≠
      ⟨[], [1], [], [], [], []⟩ := by
  refine ⟨rfl, ?_⟩
  intro h
  simp [SineParameterPredictor.mk.injEq] at h

/-- C2 (amended): the persisted checkpoint bundles the autoencoder's
final parameters, the preprocessing metadata, and the complete per-epoch
loss history — exactly one recorded scalar per epoch trained — but NOT
the sine-parameter predictor's parameters. -/
theorem trainModel_checkpoint_contents {Pre : Type}
    (step : JointState → JointState) (masks : ℕ → List ℝ × List ℝ)
    (s0 : JointState) (d : TrainData) (pre : Pre) (numEpochs : ℕ)
    (lamR lamT lamS period : ℝ) :
    (trainModel step masks s0 d pre numEpochs lamR lamT lamS period).1.preprocessing_info
        = pre ∧
    (trainModel step masks s0 d pre numEpochs lamR lamT lamS period).1.train_losses.length
        = numEpochs ∧
    (trainModel step masks s0 d pre numEpochs lamR lamT lamS period).1.train_losses
        = (trainModel step masks s0 d pre numEpochs lamR lamT lamS period).2 := by
  refine ⟨rfl, ?_, rfl⟩
  unfold trainModel finalCheckpoint
  dsimp only
  exact trainEpochs_losses_length _ _ _ _

/-! ### C5: norm of the produced phase coordinate -/

lemma norm2_nonneg (v : ℝ × ℝ) : 0 ≤ norm2 v := Real.sqrt_nonneg _

lemma norm2_forwardUnit (m : PhaseAutoEncoder) (x : List ℝ) :
    norm2 (forwardUnit m x)
      = norm2 (encode m x) / (norm2 (encode m x) + 1 / 100000000) := by
  have hN := norm2_nonneg (encode m x)
  have hn : (0 : ℝ) < norm2 (encode m x) + 1 / 100000000 := by
    have : (0 : ℝ) < 1 / 100000000 := by norm_num
    linarith
  unfold forwardUnit
  dsimp only
  unfold norm2
  have key : ((encode m x).1 / (Real.sqrt ((encode m x).1 ^ 2 + (encode m x).2 ^ 2) + 1 / 100000000)) ^ 2
      + ((encode m x).2 / (Real.sqrt ((encode m x).1 ^ 2 + (encode m x).2 ^ 2) + 1 / 100000000)) ^ 2
      = ((encode m x).1 ^ 2 + (encode m x).2 ^ 2)
        / (Real.sqrt ((encode m x).1 ^ 2 + (encode m x).2 ^ 2) + 1 / 100000000) ^ 2 := by
    rw [div_pow, div_pow, div_add_div_same]
  rw [key, Real.sqrt_div (by positivity) _,
    Real.sqrt_sq (le_of_lt (by unfold norm2 at hn; exact hn))]

/-- C5 counterexample: the claim asserts every row's phase coordinate has
norm `1 ± 1e-6`; but when the encoder's raw output is the origin (here: a
zero weight/bias encoder applied to an all-zero padding row) the
normalized coordinate is `(0, 0)` with norm `0`, far outside the
tolerance. -/
theorem unit_norm_not_one_at_origin :
    norm2 (forwardUnit ⟨[0], [0], (0, 0), [[1, 0]], [0]⟩ [0]) = 0 ∧
    ¬ |norm2 (forwardUnit ⟨[0], [0], (0, 0), [[1, 0]], [0]⟩ [0]) - 1|
        ≤ 1 / 1000000 := by
  have h : norm2 (forwardUnit ⟨[0], [0], (0, 0), [[1, 0]], [0]⟩ [0]) = 0 := by
    norm_num [forwardUnit, encode, dot, norm2, Real.sqrt_zero]
  refine ⟨h, ?_⟩
  rw [h]
  intro hc
  rw [zero_sub, abs_neg, abs_one] at hc
  norm_num at hc

/-- C5 (amended): the forward pass normalizes by `raw / (‖raw‖ + 1e-8)`,
so the produced coordinate's norm equals `‖raw‖ / (‖raw‖ + 1e-8)`; this
is within `1e-6` of `1` whenever `‖raw‖ ≥ 1e-2`, but not in general —
for raw outputs near the origin (e.g. an all-zero row under a zero-bias
encoder) the norm can be arbitrarily far below `1`. -/
theorem unit_norm_props (m : PhaseAutoEncoder) (x : List ℝ) :
    norm2 (forwardUnit m x)
      = norm2 (encode m x) / (norm2 (encode m x) + 1 / 100000000) ∧
    (1 / 100 ≤ norm2 (encode m x) →
      |norm2 (forwardUnit m x) - 1| ≤ 1 / 1000000) := by
  have hN := norm2_nonneg (encode m x)
  have hε : (0 : ℝ) < 1 / 100000000 := by norm_num
  have hn : (0 : ℝ) < norm2 (encode m x) + 1 / 100000000 := by linarith
  refine ⟨norm2_forwardUnit m x, ?_⟩
  intro hbig
  rw [norm2_forwardUnit m x, abs_le]
  have hle1 : norm2 (encode m x) / (norm2 (encode m x) + 1 / 100000000) ≤ 1 :=
    (div_le_one hn).mpr (by linarith)
  have hgap : (1 / 100000000 : ℝ) / (norm2 (encode m x) + 1 / 100000000)
      ≤ 1 / 1000000 := by
    rw [div_le_iff₀ hn]
    nlinarith
  have hsplit : 1 - norm2 (encode m x) / (norm2 (encode m x) + 1 / 100000000)
      = (1 / 100000000 : ℝ) / (norm2 (encode m x) + 1 / 100000000) := by
    field_simp
  constructor
  · nlinarith [hgap, hsplit]
  · linarith

/-- C5 witness: a unit-weight encoder on the input row `[1]` has raw
output `(1, 0)` with norm `1 ≥ 1e-2`, so the produced coordinate's norm
is within `1e-6` of `1`. -/
theorem unit_norm_props_witness :
    |norm2 (forwardUnit ⟨[1], [0], (0, 0), [[1, 0]], [0]⟩ [1]) - 1|
      ≤ 1 / 1000000 :=
  (unit_norm_props ⟨[1], [0], (0, 0), [[1, 0]], [0]⟩ [1]).2 (by
    norm_num [encode, dot, norm2, Real.sqrt_one])

/-! ### Mask-selection lemmas -/

lemma maskSelect_nil_left {α : Type} (xs : List α) : maskSelect [] xs = [] := rfl

lemma maskSelect_nil_right {α : Type} (m : List Bool) :
    maskSelect m ([] : List α) = [] := by
  unfold maskSelect
  simp

lemma maskSelect_cons {α : Type} (b : Bool) (m : List Bool) (x : α) (xs : List α) :
    maskSelect (b :: m) (x :: xs)
      = if b then x :: maskSelect m xs else maskSelect m xs := by
  unfold maskSelect
  cases b <;> simp [List.zip_cons_cons, List.filterMap_cons]

lemma maskSelect_append {α : Type} :
    ∀ (m1 : List Bool) (x1 : List α) (m2 : List Bool) (x2 : List α),
      m1.length = x1.length →
      maskSelect (m1 ++ m2) (x1 ++ x2) = maskSelect m1 x1 ++ maskSelect m2 x2 := by
  intro m1
  induction m1 with
  | nil =>
    intro x1 m2 x2 h
    have : x1 = [] := by
      cases x1 with
      | nil => rfl
      | cons a t => simp at h
    subst this
    simp [maskSelect_nil_left]
  | cons b m ih =>
    intro x1 m2 x2 h
    cases x1 with
    | nil => simp at h
    | cons a t =>
      simp only [List.cons_append, maskSelect_cons]
      rw [ih t m2 x2 (by simpa using h)]
      cases b <;> simp

lemma maskSelect_map {α β : Type} (f : α → β) :
    ∀ (mask : List Bool) (xs : List α),
      maskSelect mask (xs.map f) = (maskSelect mask xs).map f := by
  intro mask
  induction mask with
  | nil => intro xs; simp [maskSelect_nil_left]
  | cons b m ih =>
    intro xs
    cases xs with
    | nil => simp [maskSelect_nil_right]
    | cons a t =>
      simp only [List.map_cons, maskSelect_cons]
      cases b <;> simp [ih]

lemma maskSelect_length {α : Type} :
    ∀ (mask : List Bool) (xs : List α), mask.length = xs.length →
      (maskSelect mask xs).length = mask.count true := by
  intro mask
  induction mask with
  | nil => intro xs h; simp [maskSelect_nil_left]
  | cons b m ih =>
    intro xs h
    cases xs with
    | nil => simp at h
    | cons a t =>
      rw [maskSelect_cons]
      cases b with
      | false => simp [ih t (by simpa using h)]
      | true => simp [ih t (by simpa using h), List.count_cons]

lemma maskSelect_all_true {α : Type} :
    ∀ (mask : List Bool) (xs : List α), mask.length = xs.length →
      (∀ b ∈ mask, b = true) → maskSelect mask xs = xs := by
  intro mask
  induction mask with
  | nil =>
    intro xs h _
    cases xs with
    | nil => rfl
    | cons a t => simp at h
  | cons b m ih =>
    intro xs h hall
    cases xs with
    | nil => simp at h
    | cons a t =>
      have hb : b = true := hall b (by simp)
      subst hb
      rw [maskSelect_cons, if_pos rfl, ih t (by simpa using h)
        (fun x hx => hall x (by simp [hx]))]

lemma maskSelect_map_self {α : Type} (p : α → Bool) :
    ∀ xs : List α, maskSelect (xs.map p) xs = xs.filter p := by
  intro xs
  induction xs with
  | nil => rfl
  | cons a t ih =>
    simp only [List.map_cons, maskSelect_cons, List.filter_cons]
    cases h : p a <;> simp [ih, h]

lemma maskSelect_replicate_false {α : Type} :
    ∀ (n : ℕ) (xs : List α), maskSelect (List.replicate n false) xs = [] := by
  intro n
  induction n with
  | zero => intro xs; rfl
  | succ k ih =>
    intro xs
    cases xs with
    | nil => simp [maskSelect_nil_right]
    | cons a t => rw [List.replicate_succ, maskSelect_cons, if_neg (by simp)]; exact ih t

lemma maskSelect_replicate_true {α : Type} (xs : List α) :
    maskSelect (List.replicate xs.length true) xs = xs :=
  maskSelect_all_true _ _ (by simp) (fun b hb => by
    simpa using List.eq_of_mem_replicate hb)

lemma map_eq_replicate_true {α : Type} {f : α → Bool} :
    ∀ xs : List α, (∀ x ∈ xs, f x = true) →
      xs.map f = List.replicate xs.length true := by
  intro xs
  induction xs with
  | nil => intro _; rfl
  | cons a t ih =>
    intro h
    simp only [List.map_cons, List.length_cons, List.replicate_succ]
    rw [h a (by simp), ih (fun x hx => h x (by simp [hx]))]

lemma count_true_map {α : Type} (f : α → Bool) :
    ∀ xs : List α, (xs.map f).count true = (xs.filter f).length := by
  intro xs
  induction xs with
  | nil => rfl
  | cons a t ih =>
    simp only [List.map_cons, List.filter_cons, List.count_cons]
    cases h : f a <;> simp [ih, h]

/-! ### C1: padding rows and the validity mask -/

/-- C1 (amended): when the celltype labels are present, the validity
mask computed before training is false exactly for the appended
`PADDING` rows, and both the reconstruction loss and the neural-sine
loss of every epoch are identical to the losses computed on the
unpadded data — the padding rows contribute nothing.  (When the
celltype labels are absent this fails; see the counterexample.) -/
theorem padding_excluded_when_celltype_present
    (exprs : List (List ℝ)) (times : Option (List ℝ)) (cts : List String)
    (maxS nC : ℕ) (m : PhaseAutoEncoder) (pred : List ℝ → Option (ℝ × ℝ × ℝ))
    (hlen : cts.length = exprs.length)
    (hnp : ∀ c ∈ cts, ¬ c = "PADDING") :
    validMask (padData exprs times (some cts) maxS nC)
      = List.replicate exprs.length true
        ++ List.replicate (maxS - exprs.length) false ∧
    epochRecon m (padData exprs times (some cts) maxS nC)
      = epochRecon m ⟨exprs, times, some cts⟩ ∧
    epochSineLoss m (padData exprs times (some cts) maxS nC) pred
      = epochSineLoss m ⟨exprs, times, some cts⟩ pred := by
  have hfcts : cts.map (fun ct => if ct = "PADDING" then false else true)
      = List.replicate exprs.length true := by
    rw [map_eq_replicate_true cts (fun c hc => if_neg (hnp c hc)), hlen]
  have hpadmap : (List.replicate (maxS - exprs.length) "PADDING").map
      (fun ct => if ct = "PADDING" then false else true)
      = List.replicate (maxS - exprs.length) false := by
    rw [List.map_replicate]
    simp
  have hctP : (padData exprs times (some cts) maxS nC).celltypes
      = some (cts ++ List.replicate (maxS - exprs.length) "PADDING") := rfl
  have hexP : (padData exprs times (some cts) maxS nC).expressions
      = exprs ++ List.replicate (maxS - exprs.length) (List.replicate nC 0) := rfl
  have hvmP : validMask (padData exprs times (some cts) maxS nC)
      = List.replicate exprs.length true
        ++ List.replicate (maxS - exprs.length) false := by
    simp only [validMask, hctP]
    rw [List.map_append, hfcts, hpadmap]
  have hvmU : validMask ⟨exprs, times, some cts⟩
      = List.replicate exprs.length true := hfcts
  have hselP : ∀ {β : Type} (y1 y2 : List β), y1.length = exprs.length →
      maskSelect (List.replicate exprs.length true
        ++ List.replicate (maxS - exprs.length) false) (y1 ++ y2) = y1 := by
    intro β y1 y2 hy
    rw [maskSelect_append _ _ _ _ (by simp [hy]), maskSelect_replicate_false,
      List.append_nil, ← hy]
    exact maskSelect_replicate_true y1
  have hselU : ∀ {β : Type} (y1 : List β), y1.length = exprs.length →
      maskSelect (List.replicate exprs.length true) y1 = y1 := by
    intro β y1 hy
    rw [← hy]
    exact maskSelect_replicate_true y1
  have hcountP : (List.replicate exprs.length true
      ++ List.replicate (maxS - exprs.length) false).count true = exprs.length := by
    simp [List.count_replicate]
  have hcountU : (List.replicate exprs.length true).count true = exprs.length := by
    simp
  refine ⟨hvmP, ?_, ?_⟩
  · -- reconstruction term
    simp only [epochRecon, hvmP, hvmU, hexP, List.map_append,
      hselP exprs _ rfl,
      hselP (exprs.map (fun x => (forwardAE m x).2)) _ (by simp),
      hselU exprs rfl, hselU (exprs.map (fun x => (forwardAE m x).2)) (by simp),
      hcountP, hcountU]
  · -- neural-sine term
    have hfeP : finalExpressions (padData exprs times (some cts) maxS nC) = exprs := by
      simp only [finalExpressions, hctP, hvmP, hexP,
        hselP cts _ hlen, hselP exprs _ rfl, hfcts, hselU exprs rfl]
    have hfeU : finalExpressions ⟨exprs, times, some cts⟩ = exprs := by
      simp only [finalExpressions, hvmU,
        hselU cts hlen, hfcts, hselU exprs rfl]
    have hfcP : finalCelltypes (padData exprs times (some cts) maxS nC) = cts := by
      simp only [finalCelltypes, hctP, hvmP,
        hselP cts _ hlen, hfcts, hselU cts hlen]
    have hfcU : finalCelltypes ⟨exprs, times, some cts⟩ = cts := by
      simp only [finalCelltypes, hvmU,
        hselU cts hlen, hfcts]
    have hfpP : finalPhaseCoords m (padData exprs times (some cts) maxS nC)
        = exprs.map (fun x => (forwardAE m x).1) := by
      simp only [finalPhaseCoords, hctP, hvmP, hexP, List.map_append,
        hselP cts _ hlen, hselP (exprs.map (fun x => (forwardAE m x).1)) _ (by simp),
        hfcts, hselU (exprs.map (fun x => (forwardAE m x).1)) (by simp)]
    have hfpU : finalPhaseCoords m ⟨exprs, times, some cts⟩
        = exprs.map (fun x => (forwardAE m x).1) := by
      simp only [finalPhaseCoords, hvmU,
        hselU cts hlen, hfcts,
        hselU (exprs.map (fun x => (forwardAE m x).1)) (by simp)]
    simp only [epochSineLoss, hctP, hvmP, hvmU,
      hselP cts _ hlen, hselU cts hlen, hfcts,
      hfeP, hfeU, hfcP, hfcU, hfpP, hfpU]

/-- C1 witness: concrete instance — two real samples of celltype `A`
padded to four rows; the mask is true twice then false twice, and both
losses agree with the unpadded ones. -/
theorem padding_excluded_when_celltype_present_witness :
    validMask (padData [[1], [2]] none (some ["A", "A"]) 4 1)
      = [true, true, false, false] ∧
    epochRecon ⟨[1], [0], (0, 1), [[1, 0]], [0]⟩
        (padData [[1], [2]] none (some ["A", "A"]) 4 1)
      = epochRecon ⟨[1], [0], (0, 1), [[1, 0]], [0]⟩ ⟨[[1], [2]], none, some ["A", "A"]⟩ ∧
    epochSineLoss ⟨[1], [0], (0, 1), [[1, 0]], [0]⟩
        (padData [[1], [2]] none (some ["A", "A"]) 4 1) constPredictor
      = epochSineLoss ⟨[1], [0], (0, 1), [[1, 0]], [0]⟩
          ⟨[[1], [2]], none, some ["A", "A"]⟩ constPredictor := by
  have h := padding_excluded_when_celltype_present [[1], [2]] none ["A", "A"] 4 1
    ⟨[1], [0], (0, 1), [[1, 0]], [0]⟩ constPredictor rfl
    (by intro c hc; have hca : c = "A" := by simpa using hc
        subst hca; decide)
  refine ⟨?_, h.2.1, h.2.2⟩
  rw [h.1]
  rfl

/-- C1 counterexample: with the celltype labels entirely absent, the
validity mask of the padded data is true everywhere — including the
appended all-zero `PADDING` row — and the padding row changes the
reconstruction loss (here from `0` to a positive value), so the claim
"the mask is false exactly for the PADDING rows and padding rows never
influence the reconstruction loss, whether or not CellTypeLabel is
present" is false. -/
theorem padding_counted_without_celltype :
    validMask (padData [[(100000000 : ℝ) / 100000001]] none none 2 1)
      = [true, true] ∧
    ¬ (epochRecon ⟨[0], [0], (1, 0), [[1, 0]], [0]⟩
          (padData [[(100000000 : ℝ) / 100000001]] none none 2 1)
        = epochRecon ⟨[0], [0], (1, 0), [[1, 0]], [0]⟩
            ⟨[[(100000000 : ℝ) / 100000001]], none, none⟩) := by
  constructor
  · rfl
  · have hfwd : ∀ x : List ℝ,
        (forwardAE ⟨[0], [0], (1, 0), [[1, 0]], [0]⟩ x).2
          = [(100000000 : ℝ) / 100000001] := by
      intro x
      have hdot : dot [(0 : ℝ)] x = 0 := by
        cases x with
        | nil => simp [dot]
        | cons a t => simp [dot]
      simp only [forwardAE, forwardUnit, encode, decodeAE, norm2, hdot]
      norm_num [dot, Real.sqrt_one]
    have hP : epochRecon ⟨[0], [0], (1, 0), [[1, 0]], [0]⟩
        (padData [[(100000000 : ℝ) / 100000001]] none none 2 1)
        = ((100000000 : ℝ) / 100000001) ^ 2 / 2 := by
      simp only [epochRecon, validMask, padData, maskSelect]
      norm_num [hfwd, List.filterMap_cons, List.filterMap_nil, Function.comp]
    have hU : epochRecon ⟨[0], [0], (1, 0), [[1, 0]], [0]⟩
        ⟨[[(100000000 : ℝ) / 100000001]], none, none⟩ = 0 := by
      simp only [epochRecon, validMask, maskSelect]
      norm_num [hfwd, List.filterMap_cons, List.filterMap_nil, Function.comp]
    rw [hP, hU]
    norm_num

/-! ### C3: the fixed-length gene-input contract -/

lemma geneInputFull_spec (n : ℕ) (g : List ℝ) (h : g.length ≤ n) :
    (geneInputFull n g).length = n ∧
    (geneInputFull n g).take g.length = g ∧
    (geneInputFull n g).drop g.length = List.replicate (n - g.length) 0 := by
  have ht : g.take n = g := List.take_of_length_le h
  unfold geneInputFull
  rw [ht]
  refine ⟨?_, ?_, ?_⟩
  · rw [List.length_append, List.length_replicate]
    omega
  · exact List.take_left g _
  · exact List.drop_left g _

/-- C3 counterexample: five real rows of celltype `A` padded to `N = 6`
rows.  The expressions handed to `neural_sine_fitting_loss` are the
valid (non-`PADDING`) rows, so `input_dim = expressions.shape[0] = 5`,
and the zero-filled vector built for each gene has length `5`, NOT the
full padded sample count `6` claimed (which is also the predictor's
fixed input dimension). -/
theorem sine_input_shorter_than_padded_count :
    (finalExpressions (padData [[1], [1], [1], [1], [1]] none
        (some ["A", "A", "A", "A", "A"]) 6 1)).length = 5 ∧
    (padData [[1], [1], [1], [1], [1]] none
        (some ["A", "A", "A", "A", "A"]) 6 1).expressions.length = 6 ∧
    (geneInputFull (finalExpressions (padData [[1], [1], [1], [1], [1]] none
        (some ["A", "A", "A", "A", "A"]) 6 1)).length [1, 1, 1, 1, 1]).length = 5 ∧
    ¬ ((geneInputFull (finalExpressions (padData [[1], [1], [1], [1], [1]] none
        (some ["A", "A", "A", "A", "A"]) 6 1)).length [1, 1, 1, 1, 1]).length
      = (padData [[1], [1], [1], [1], [1]] none
        (some ["A", "A", "A", "A", "A"]) 6 1).expressions.length) := by
  refine ⟨?_, by decide, ?_, ?_⟩ <;>
    simp [finalExpressions, padData, validMask, maskSelect, geneInputFull,
      List.filterMap_cons]

/-- C3 (amended): the vector fed to the predictor for each gene is built
with `input_dim` equal to the number of valid (non-`PADDING`) rows
passed into the loss — not the full padded sample count `N` — with the
group's `k` expression values in its first `k` positions and zeros after
them.  (The two lengths coincide only when no padding rows exist.) -/
theorem sine_input_built_from_valid_rows (d : TrainData) (cts : List String)
    (h1 : d.celltypes = some cts) (h2 : cts.length = d.expressions.length) :
    (finalExpressions d).length
      = (cts.filter (fun c => if c = "PADDING" then false else true)).length ∧
    (∀ g : List ℝ, g.length ≤ (finalExpressions d).length →
      (geneInputFull (finalExpressions d).length g).length
          = (finalExpressions d).length ∧
      (geneInputFull (finalExpressions d).length g).take g.length = g ∧
      (geneInputFull (finalExpressions d).length g).drop g.length
          = List.replicate ((finalExpressions d).length - g.length) 0) := by
  constructor
  · simp only [finalExpressions, h1]
    have hvm : validMask d
        = cts.map (fun ct => if ct = "PADDING" then false else true) := by
      simp only [validMask, h1]
    rw [hvm, maskSelect_map_self]
    have hlen1 : (maskSelect (cts.map (fun ct =>
        if ct = "PADDING" then false else true)) d.expressions).length
        = (cts.filter (fun ct => if ct = "PADDING" then false else true)).length := by
      rw [maskSelect_length _ _ (by simp [h2]), count_true_map]
    rw [maskSelect_all_true _ _ (by rw [hlen1]; simp) ?hall]
    · exact hlen1
    case hall =>
      intro b hb
      rcases List.mem_map.mp hb with ⟨x, hx, hbx⟩
      have := List.of_mem_filter hx
      rw [← hbx]
      exact this
  · intro g hg
    exact geneInputFull_spec _ g hg

/-- C3 witness: a two-row dataset with no padding — the gene-input
length equals the valid-row count `2`, and a one-value group occupies
the first position with a zero after it. -/
theorem sine_input_built_from_valid_rows_witness :
    (finalExpressions ⟨[[1], [2]], none, some ["A", "B"]⟩).length
      = (["A", "B"].filter (fun c => if c = "PADDING" then false else true)).length ∧
    (geneInputFull (finalExpressions ⟨[[1], [2]], none, some ["A", "B"]⟩).length
        [5]).take 1 = [5] := by
  have h := sine_input_built_from_valid_rows ⟨[[1], [2]], none, some ["A", "B"]⟩
    ["A", "B"] rfl rfl
  refine ⟨h.1, ?_⟩
  have h2 := (h.2 [5] (by rw [h.1]; decide)).2.1
  simpa using h2

/-! ### C6: the per-pair contribution formula -/

lemma maskSelect_pred_zip (P : ℝ → Bool) (f : ℝ → ℝ) (F : ℝ → ℝ → ℝ) :
    ∀ (g gp : List ℝ), gp.length = g.length →
      List.zipWith F (maskSelect (g.map P) g) (maskSelect (g.map P) (gp.map f))
        = ((g.zip gp).filter (fun p => P p.1)).map (fun p => F p.1 (f p.2)) ∧
      (maskSelect (g.map P) g).length
        = ((g.zip gp).filter (fun p => P p.1)).length := by
  intro g
  induction g with
  | nil => intro gp h; simp [maskSelect_nil_left]
  | cons x g ih =>
    intro gp h
    cases gp with
    | nil => simp at h
    | cons y gp =>
      have h' : gp.length = g.length := by simpa using h
      obtain ⟨ih1, ih2⟩ := ih gp h'
      simp only [List.map_cons, maskSelect_cons, List.zip_cons_cons,
        List.filter_cons]
      cases hP : P x with
      | false => simp [ih1, ih2]
      | true => simp [ih1, ih2]

/-- The inner gene-loop body computes, for a succeeding predictor call,
exactly the contribution described by the spec with the MSE restricted
to the positions of the first `k` whose expression value is nonzero. -/
lemma genePairLoss_eq_spec (inputDim minSamples : ℕ)
    (pred : List ℝ → Option (ℝ × ℝ × ℝ)) (gp g : List ℝ) (a sh b : ℝ)
    (hlen : g.length ≤ inputDim) (hmin : minSamples ≤ g.length)
    (hgp : gp.length = g.length)
    (hp : pred (geneInputFull inputDim g) = some (a, sh, b)) :
    genePairLoss inputDim minSamples pred gp g
      = some (specGeneContribution gp g a sh b) := by
  have hnotlt : ¬ g.length < minSamples := not_lt.mpr hmin
  have hinput_take : (geneInputFull inputDim g).take g.length = g :=
    (geneInputFull_spec inputDim g hlen).2.1
  have hvm : ((geneInputFull inputDim g).map
        (fun v => if v = 0 then false else true)).take g.length
      = g.map (fun v => if v = 0 then false else true) := by
    rw [← List.map_take, hinput_take]
  obtain ⟨hzip, hlen2⟩ := maskSelect_pred_zip
    (fun v => if v = 0 then false else true)
    (fun p => a * Real.sin (p + sh) + b) (fun gi yi => (gi - yi) ^ 2) g gp hgp
  simp only [genePairLoss, if_neg hnotlt, hp, hvm, hzip, hlen2,
    specGeneContribution]

/-- Concrete evaluation of the sine-fitting accumulator on a single
qualifying group of five samples at phase `0` with gene column
`[0, 1, 1, 1, 1]` and a constant predictor `(1, 0, 0)`: the zero entry
is dropped from the MSE, giving `4/4 + 0.01 = 101/100` over one
combination. -/
lemma sineStats_concrete5 :
    sineStats (List.replicate 5 ((1 : ℝ), 0)) [[0], [1], [1], [1], [1]]
      (List.replicate 5 "A") 5 constPredictor = (101 / 100, 1) := by
  have hspec : specGeneContribution (List.replicate 5 (0 : ℝ)) [0, 1, 1, 1, 1]
      1 0 0 = 101 / 100 := by
    simp only [specGeneContribution, List.replicate, List.zip_cons_cons,
      List.zip_nil_right, List.filter_cons, List.filter_nil]
    norm_num
  have hgene : genePairLoss 5 5 constPredictor (List.replicate 5 (0 : ℝ))
      [0, 1, 1, 1, 1] = some ((101 : ℝ) / 100) := by
    rw [genePairLoss_eq_spec 5 5 constPredictor _ _ 1 0 0 (by norm_num)
      (by norm_num) (by simp) rfl, hspec]
  have hphase : (List.replicate 5 ((1 : ℝ), 0)).map coordsToPhase
      = List.replicate 5 0 := by
    rw [List.map_replicate, coordsToPhase_unitx]
  unfold sineStats
  rw [hphase]
  have huniq : uniqueCelltypes (List.replicate 5 "A") = ["A"] := by decide
  rw [huniq]
  simp only [sineStatsAux, groupStats, groupStatsAux]
  rw [if_neg (by decide : ¬ ("A" : String) = "PADDING")]
  have hmask : (List.replicate 5 "A").map
      (fun ct => decide (ct = "A")) = List.replicate 5 true := by
    decide
  rw [hmask]
  rw [if_neg (by decide : ¬ (List.replicate 5 true).count true < 5)]
  have hsel1 : maskSelect (List.replicate 5 true) (List.replicate 5 (0 : ℝ))
      = List.replicate 5 (0 : ℝ) := by
    simpa using maskSelect_replicate_true (List.replicate 5 (0 : ℝ))
  have hsel2 : maskSelect (List.replicate 5 true)
      ([[0], [1], [1], [1], [1]] : List (List ℝ)) = [[0], [1], [1], [1], [1]] := by
    simpa using maskSelect_replicate_true ([[0], [1], [1], [1], [1]] : List (List ℝ))
  rw [hsel1, hsel2]
  have hcol : ([[0], [1], [1], [1], [1]] : List (List ℝ)).map
      (fun row => row.getD 0 0) = [0, 1, 1, 1, 1] := by
    simp
  simp only [List.length_cons, List.length_nil, List.range_succ, List.range_zero,
    List.nil_append, hcol, hgene]
  norm_num

/-- C6 counterexample: on a qualifying group of five samples at phase 0
with gene column `[0, 1, 1, 1, 1]` and predicted parameters `(1, 0, 0)`
the program's accumulated term is `101/100` (the MSE is taken over the
four nonzero positions), while the claim's formula — MSE over all first
`k = 5` positions — gives `81/100`. -/
theorem sine_mse_skips_zero_entries :
    neuralSineFittingLoss (List.replicate 5 ((1 : ℝ), 0))
      (some [[0], [1], [1], [1], [1]]) (some (List.replicate 5 "A"))
      constPredictor 1 5 = 101 / 100 ∧
    specGeneContributionFirstK (List.replicate 5 (0 : ℝ)) [0, 1, 1, 1, 1]
      1 0 0 = 81 / 100 ∧
    ¬ ((101 : ℝ) / 100 = 81 / 100) := by
  refine ⟨?_, ?_, by norm_num⟩
  · simp only [neuralSineFittingLoss, sineStats_concrete5]
    norm_num
  · simp only [specGeneContributionFirstK, List.replicate, List.zip_cons_cons,
      List.zip_nil_right, List.map_cons, List.map_nil]
    norm_num

/-- C6 (amended): for every qualifying `(celltype, gene)` pair whose
predictor call succeeds with `(amplitude, phaseOffset, baseline)`, the
accumulated contribution is the MSE between
`amplitude·sin(phase + phaseOffset) + baseline` and the true expression
values restricted to those of the first `k` positions whose expression
value is NONZERO (not all first `k` positions), plus the regularizer
`0.01·(amplitude² + baseline²)`; the final term is the weight times the
accumulated sum divided by the combination count, and exactly `0` if no
pair qualified. -/
theorem sine_pair_contribution_props :
    (∀ (inputDim ms : ℕ) (pred : List ℝ → Option (ℝ × ℝ × ℝ)) (gp g : List ℝ)
        (a sh b : ℝ), g.length ≤ inputDim → ms ≤ g.length →
      gp.length = g.length → pred (geneInputFull inputDim g) = some (a, sh, b) →
      genePairLoss inputDim ms pred gp g
        = some (specGeneContribution gp g a sh b)) ∧
    (∀ (coords : List (ℝ × ℝ)) (exprs : List (List ℝ)) (cts : List String)
        (pred : List ℝ → Option (ℝ × ℝ × ℝ)) (lam : ℝ) (ms : ℕ),
      0 < (sineStats coords exprs cts ms pred).2 →
      neuralSineFittingLoss coords (some exprs) (some cts) pred lam ms
        = lam * ((sineStats coords exprs cts ms pred).1
            / ((sineStats coords exprs cts ms pred).2 : ℝ))) ∧
    (∀ (coords : List (ℝ × ℝ)) (exprs : List (List ℝ)) (cts : List String)
        (pred : List ℝ → Option (ℝ × ℝ × ℝ)) (lam : ℝ) (ms : ℕ),
      (sineStats coords exprs cts ms pred).2 = 0 →
      neuralSineFittingLoss coords (some exprs) (some cts) pred lam ms = 0) := by
  refine ⟨genePairLoss_eq_spec, ?_, ?_⟩
  · intro coords exprs cts pred lam ms h
    simp only [neuralSineFittingLoss]
    rw [if_pos h]
  · intro coords exprs cts pred lam ms h
    simp only [neuralSineFittingLoss]
    rw [if_neg (by omega)]

/-- C6 witness: the per-pair equation at a concrete one-sample group,
the aggregation equation at the concrete five-sample instance (one
qualifying combination), and the zero case on empty data. -/
theorem sine_pair_contribution_props_witness :
    genePairLoss 1 1 constPredictor [0] [1]
      = some (specGeneContribution [0] [1] 1 0 0) ∧
    neuralSineFittingLoss (List.replicate 5 ((1 : ℝ), 0))
        (some [[0], [1], [1], [1], [1]]) (some (List.replicate 5 "A"))
        constPredictor 1 5
      = 1 * ((sineStats (List.replicate 5 ((1 : ℝ), 0)) [[0], [1], [1], [1], [1]]
            (List.replicate 5 "A") 5 constPredictor).1
          / ((sineStats (List.replicate 5 ((1 : ℝ), 0)) [[0], [1], [1], [1], [1]]
            (List.replicate 5 "A") 5 constPredictor).2 : ℝ)) ∧
    neuralSineFittingLoss [] (some []) (some []) constPredictor 1 5 = 0 :=
  ⟨sine_pair_contribution_props.1 1 1 constPredictor [0] [1] 1 0 0
      (by norm_num) (by norm_num) rfl rfl,
   sine_pair_contribution_props.2.1 _ _ _ constPredictor 1 5
      (by rw [sineStats_concrete5]; norm_num),
   sine_pair_contribution_props.2.2 [] [] [] constPredictor 1 5 rfl⟩

/-! ### C7: qualification of (celltype, gene) combinations -/

lemma groupStatsAux_count (inputDim minSamples : ℕ)
    (pred : List ℝ → Option (ℝ × ℝ × ℝ)) (gp : List ℝ) (ge : List (List ℝ)) :
    ∀ l : List ℕ, (groupStatsAux inputDim minSamples pred gp ge l).2
      = (l.filter (fun i => (genePairLoss inputDim minSamples pred gp
          (ge.map (fun row => row.getD i 0))).isSome)).length := by
  intro l
  induction l with
  | nil => rfl
  | cons i t ih =>
    simp only [groupStatsAux, List.filter_cons]
    cases hg : genePairLoss inputDim minSamples pred gp
        (ge.map (fun row => row.getD i 0)) with
    | none => simp [hg, ih]
    | some v =>
      simp [hg, ih]
      omega

lemma sineStatsAux_count (phases : List ℝ) (exprs : List (List ℝ))
    (cts : List String) (nGenes inputDim minSamples : ℕ)
    (pred : List ℝ → Option (ℝ × ℝ × ℝ)) :
    ∀ us : List String,
      (sineStatsAux phases exprs cts nGenes inputDim minSamples pred us).2
        = ((us.filter (fun c => decide (¬ c = "PADDING" ∧ minSamples ≤
              (cts.map (fun ct => decide (ct = c))).count true))).map
            (fun c => (groupStats nGenes inputDim minSamples pred
              (maskSelect (cts.map (fun ct => decide (ct = c))) phases)
              (maskSelect (cts.map (fun ct => decide (ct = c))) exprs)).2)).sum := by
  intro us
  induction us with
  | nil => rfl
  | cons c t ih =>
    simp only [sineStatsAux, List.filter_cons]
    by_cases hc : c = "PADDING"
    · rw [if_pos hc]
      have hdec : decide (¬ c = "PADDING" ∧ minSamples ≤
          (cts.map (fun ct => decide (ct = c))).count true)
          = false := by
        subst hc
        simp
      rw [hdec, if_neg (by simp)]
      exact ih
    · rw [if_neg hc]
      by_cases hm : (cts.map (fun ct => decide (ct = c))).count true
          < minSamples
      · rw [if_pos hm]
        have hdec : decide (¬ c = "PADDING" ∧ minSamples ≤
            (cts.map (fun ct => decide (ct = c))).count true)
            = false := by
          simp [hc, Nat.not_le.mpr hm]
        rw [hdec, if_neg (by simp)]
        exact ih
      · rw [if_neg hm]
        have hdec : decide (¬ c = "PADDING" ∧ minSamples ≤
            (cts.map (fun ct => decide (ct = c))).count true)
            = true := by
          simp [hc, Nat.not_lt.mp hm]
        rw [hdec, if_pos (by simp)]
        simp only [List.map_cons, List.sum_cons]
        rw [ih]

/-- C7: a `(celltype, gene)` combination is counted only for celltype
groups that are not the `PADDING` sentinel and have size at least
`min_samples` (the spec-side `qualifyingGroups`), and only when the gene
evaluation succeeds — which itself requires the gene's value count (the
group size) to be at least `min_samples`.  Concretely, with celltype
groups of sizes 6 and 4, two genes and threshold 5, the combination
counter is `2`: only the size-6 group's genes are counted. -/
theorem sine_qualification_props :
    (∀ (coords : List (ℝ × ℝ)) (exprs : List (List ℝ)) (cts : List String)
        (ms : ℕ) (pred : List ℝ → Option (ℝ × ℝ × ℝ)),
      (sineStats coords exprs cts ms pred).2
        = ((qualifyingGroups cts ms).map (fun c =>
            ((List.range (exprs.headD []).length).filter (fun i =>
              (genePairLoss exprs.length ms pred
                (maskSelect (cts.map (fun ct => decide (ct = c)))
                  (coords.map coordsToPhase))
                ((maskSelect (cts.map (fun ct => decide (ct = c)))
                  exprs).map (fun row => row.getD i 0))).isSome)).length)).sum) ∧
    (∀ (inputDim ms : ℕ) (pred : List ℝ → Option (ℝ × ℝ × ℝ)) (gp g : List ℝ),
      (genePairLoss inputDim ms pred gp g).isSome = true → ms ≤ g.length) ∧
    (sineStats (List.replicate 10 ((1 : ℝ), 0)) (List.replicate 10 [(0 : ℝ), 0])
      ["A", "A", "A", "A", "A", "A", "B", "B", "B", "B"] 5 constPredictor).2
      = 2 := by
  have h1 : ∀ (coords : List (ℝ × ℝ)) (exprs : List (List ℝ)) (cts : List String)
      (ms : ℕ) (pred : List ℝ → Option (ℝ × ℝ × ℝ)),
      (sineStats coords exprs cts ms pred).2
        = ((qualifyingGroups cts ms).map (fun c =>
            ((List.range (exprs.headD []).length).filter (fun i =>
              (genePairLoss exprs.length ms pred
                (maskSelect (cts.map (fun ct => decide (ct = c)))
                  (coords.map coordsToPhase))
                ((maskSelect (cts.map (fun ct => decide (ct = c)))
                  exprs).map (fun row => row.getD i 0))).isSome)).length)).sum := by
    intro coords exprs cts ms pred
    unfold sineStats qualifyingGroups
    rw [sineStatsAux_count]
    congr 1
    apply List.map_congr_left
    intro c hc
    unfold groupStats
    rw [groupStatsAux_count]
  have h2 : ∀ (inputDim ms : ℕ) (pred : List ℝ → Option (ℝ × ℝ × ℝ))
      (gp g : List ℝ),
      (genePairLoss inputDim ms pred gp g).isSome = true → ms ≤ g.length := by
    intro inputDim ms pred gp g h
    by_contra hlt
    rw [genePairLoss, if_pos (Nat.not_le.mp hlt)] at h
    simp at h
  refine ⟨h1, h2, ?_⟩
  rw [h1]
  have hq : qualifyingGroups ["A", "A", "A", "A", "A", "A", "B", "B", "B", "B"] 5
      = ["A"] := by decide
  rw [hq]
  simp only [List.map_cons, List.map_nil, List.sum_cons, List.sum_nil]
  simp only [show decide True = true from by decide,
    show decide (("B" : String) = "A") = false from by decide]
  simp [genePairLoss, constPredictor, maskSelect_cons,
    List.replicate_succ, List.replicate_zero, List.range_succ]

/-- C7 witness: a successful gene evaluation on a five-value column
implies the threshold `5` is met. -/
theorem sine_qualification_props_witness :
    5 ≤ ([0, 1, 1, 1, 1] : List ℝ).length :=
  sine_qualification_props.2.1 5 5 constPredictor (List.replicate 5 0)
    [0, 1, 1, 1, 1] (by simp [genePairLoss, constPredictor])

end Cyclops

end
